import Mathlib

/-!
Verification of the Snake game core (the game-context module of the
repository).  The definitions below are a shallow embedding of the
TypeScript source: positions are pairs of integers, the per-tick update
is an explicit state-transition function, and the two sources of
partiality in the original (the rejection-sampling food generator, whose
loop need not terminate, and array accesses that would throw) are made
explicit:

* randomness is modelled by passing the stream of draws that
  `Math.random` would produce as an explicit list argument; the
  rejection-sampling loop becomes a search through that list, returning
  `none` when the provided draws are exhausted (the analogue of the
  source loop never finding a free cell);
* `setSnakeDirection` returns `none` on an out-of-range snake index
  (the source reads `.direction` of `undefined` and throws);
* the remaining accesses that could throw in JavaScript
  (`snake.body[0]` on an empty body, `foodList[0]` on an empty food
  list inside the AI, and the neighbour lookup `prev.snakes[0|1]`) are
  totalised with defaults; all theorems about those paths assume the
  documented data-model invariants (two snakes, non-empty bodies,
  non-empty in-grid food list), under which the defaults are never
  consulted, so the totalisation is unobservable.

Reserved fields of the source state (power-ups, snake effects, last
power-up spawn time) are never read or written by any core operation,
and the object literal building the initial state does not set them, so
they are omitted from the embedded state.
-/

namespace SnakeGame

/-- A grid position; the source uses a pair of JavaScript numbers that
only ever hold integers, and they can go negative one step past the
wall, so we use integers. -/
abbrev Pos := Int × Int

/-- The four movement directions of the source. -/
inductive Direction : Type
  | UP
  | DOWN
  | LEFT
  | RIGHT
deriving DecidableEq, Repr

/-- The three game modes of the source. -/
inductive GameMode : Type
  | SINGLE
  | MULTIPLAYER
  | AI_VS_AI
deriving DecidableEq, Repr

/-- A snake: ordered body segments (head first) plus current direction. -/
structure Snake : Type where
  body : List Pos
  direction : Direction
deriving DecidableEq, Repr

/-- The game state held by the provider.  The unused reserved fields of
the source interface are omitted (see the file comment). -/
structure GameState : Type where
  isRunning : Bool
  snakes : List Snake
  food : List Pos
  scores : List Nat
  speed : Nat
  snakeColors : String × String
  gameMode : GameMode
deriving DecidableEq, Repr

/-- Source constant `GRID_WIDTH`. -/
def GRID_WIDTH : Int := 40

/-- Source constant `GRID_HEIGHT`. -/
def GRID_HEIGHT : Int := 30

/-- The `opposites` lookup table that appears (twice) in the source. -/
def opposites : Direction → Direction
  | .UP => .DOWN
  | .DOWN => .UP
  | .LEFT => .RIGHT
  | .RIGHT => .LEFT

/-- The out-of-bounds test of the source, written exactly as its guard
`x < 0 || x >= GRID_WIDTH || y < 0 || y >= GRID_HEIGHT`. -/
def outOfBounds (p : Pos) : Bool :=
  decide (p.1 < 0) || decide (GRID_WIDTH ≤ p.1) ||
    decide (p.2 < 0) || decide (GRID_HEIGHT ≤ p.2)

/-- Being inside the grid: the negation of `outOfBounds`. -/
def inBounds (p : Pos) : Bool :=
  !outOfBounds p

/-- Source `isPositionOccupied`: the position coincides with some
snake body segment or some existing food item. -/
def isPositionOccupied (position : Pos) (snakes : List Snake)
    (foods : List Pos) : Bool :=
  (snakes.any fun snake => snake.body.any fun q => q == position) ||
    (foods.any fun q => q == position)

/-- Source `generateFood`: rejection sampling.  The stream of
draws that `generateRandomPosition` would return is passed in as
`rand`; the loop keeps drawing until an unoccupied position appears, so
it returns the first entry of `rand` that is not occupied, and `none`
if the supplied draws are exhausted (the source would keep looping). -/
def generateFood (rand : List Pos) (snakes : List Snake)
    (foods : List Pos) : Option Pos :=
  rand.find? fun position => !isPositionOccupied position snakes foods

/-- Source `createInitialState`.  The initial snakes, one food
item generated away from them, zero scores, speed 100, the default
colours, not yet running. -/
def createInitialState (rand : List Pos) (mode : GameMode) :
    Option GameState :=
  let snakes : List Snake :=
    [ { body := [(5, 5)], direction := .RIGHT },
      { body := [(GRID_WIDTH - 6, GRID_HEIGHT - 6)], direction := .LEFT } ]
  (generateFood rand snakes []).map fun f =>
    { isRunning := false
      snakes := snakes
      food := [f]
      scores := [0, 0]
      speed := 100
      snakeColors := ("#4ade80", "#60a5fa")
      gameMode := mode }

/-- Source `startGame`: rebuild the initial state for the mode,
keep the previously configured speed and colours, set running. -/
def startGame (rand : List Pos) (mode : GameMode) (prev : GameState) :
    Option GameState :=
  (createInitialState rand mode).map fun st =>
    { st with
      speed := prev.speed
      snakeColors := prev.snakeColors
      isRunning := true }

/-- Source `setFoodPosition`: no-op when not running or when the
position collides with a snake segment or existing food; otherwise the
position is appended to the food list.  Note that the source performs
no bounds check here. -/
def setFoodPosition (position : Pos) (prev : GameState) : GameState :=
  if prev.isRunning = false then prev
  else if isPositionOccupied position prev.snakes prev.food then prev
  else { prev with food := prev.food ++ [position] }

/-- JavaScript `Array.prototype.map` with the element index, starting
from `i`. -/
def jsMapIdxAux (f : Nat → α → α) (i : Nat) : List α → List α
  | [] => []
  | a :: as => f i a :: jsMapIdxAux f (i + 1) as

/-- JavaScript `Array.prototype.map` with the element index. -/
def jsMapIdx (f : Nat → α → α) (l : List α) : List α :=
  jsMapIdxAux f 0 l

/-- Source `setSnakeDirection`.  There is no running-flag check;
the only guard is the reversal check.  An out-of-range index makes the
source read `.direction` of `undefined` and throw, which we model as
`none`. -/
def setSnakeDirection (snakeIndex : Nat) (direction : Direction)
    (prev : GameState) : Option GameState :=
  (prev.snakes[snakeIndex]?).map fun snake =>
    if opposites snake.direction = direction then prev
    else
      { prev with
        snakes := jsMapIdx
          (fun index s =>
            if index = snakeIndex then { s with direction := direction }
            else s)
          prev.snakes }

/-- Source `isSafeMove`: inside the grid and on no body segment
of the given snakes. -/
def isSafeMove (position : Pos) (snakes : List Snake) : Bool :=
  !outOfBounds position &&
    !(snakes.any fun snake => snake.body.any fun q => q == position)

/-- Source `getNextPosition` (also the inline movement `switch`
of `updateGame`, which is character-for-character the same shifts). -/
def getNextPosition (position : Pos) (direction : Direction) : Pos :=
  match direction with
  | .UP => (position.1, position.2 - 1)
  | .DOWN => (position.1, position.2 + 1)
  | .LEFT => (position.1 - 1, position.2)
  | .RIGHT => (position.1 + 1, position.2)

/-- The default used to totalise the lookups that would be `undefined`
in the source (never consulted under the data-model invariants). -/
def junkSnake : Snake :=
  { body := [], direction := .UP }

/-- Source `getNextDirection`: the greedy AI.  Target food by
minimal Manhattan distance (the source seeds the reduction with
`foodList[0]`, which on an empty list is `undefined` and crashes the
reduction; we return `(0, 0)` on that path, and every theorem touching
the AI assumes a non-empty food list).  Candidates are the four
directions minus the reverse and minus unsafe cells; a further filter
avoids the opposing snake's predicted head unless that empties the
candidates; ties are broken in favour of the earlier candidate. -/
def getNextDirection (snake : Snake) (foodList : List Pos)
    (otherSnake : Snake) : Direction :=
  let head := snake.body.headD (0, 0)
  let targetFood :=
    match foodList with
    | [] => (0, 0)
    | f0 :: _ =>
      foodList.foldl
        (fun (prev curr : Pos) =>
          if |curr.1 - head.1| + |curr.2 - head.2| <
              |prev.1 - head.1| + |prev.2 - head.2| then curr
          else prev)
        f0
  let directions : List Direction := [.UP, .DOWN, .LEFT, .RIGHT]
  let validDirections := directions.filter fun dir =>
    decide (dir ≠ opposites snake.direction) &&
      isSafeMove (getNextPosition head dir) [snake, otherSnake]
  let predictedOtherHead :=
    getNextPosition (otherSnake.body.headD (0, 0)) otherSnake.direction
  let filteredDirections := validDirections.filter fun dir =>
    getNextPosition head dir != predictedOtherHead
  let finalDirections :=
    if filteredDirections.isEmpty then validDirections
    else filteredDirections
  match finalDirections with
  | [] => snake.direction
  | d0 :: rest =>
    let score : Direction → Int := fun dir =>
      let n := getNextPosition head dir
      let distanceToFood := |n.1 - targetFood.1| + |n.2 - targetFood.2|
      Neg.neg distanceToFood
    rest.foldl
      (fun best current => if score current > score best then current else best)
      d0

/-- The direction-resolution phase of `updateGame`: in `AI_VS_AI` both
snakes get an AI direction, in `SINGLE` only snake 1 does (snake 0 is
the human), in `MULTIPLAYER` nothing changes.  All AI choices read the
same pre-tick snapshot. -/
def resolveDirections (prev : GameState) : List Snake :=
  match prev.gameMode with
  | .AI_VS_AI =>
    jsMapIdx
      (fun index snake =>
        let otherSnake := prev.snakes.getD (if index = 0 then 1 else 0) junkSnake
        { snake with
          direction := getNextDirection snake prev.food otherSnake })
      prev.snakes
  | .SINGLE =>
    jsMapIdx
      (fun index snake =>
        if index = 1 then
          { snake with
            direction :=
              getNextDirection snake prev.food (prev.snakes.getD 0 junkSnake) }
        else snake)
      prev.snakes
  | .MULTIPLAYER => prev.snakes

/-- The next head of a snake: its current head shifted one cell along
its current direction. -/
def nextHeadOf (snake : Snake) : Pos :=
  getNextPosition (snake.body.headD (0, 0)) snake.direction

/-- Result of the movement phase of `updateGame`: the moved snakes and
the `newState.food` / `newScores` / `newState.isRunning` accumulators
as they stand after the per-snake loop. -/
structure MoveOut : Type where
  snakes : List Snake
  food : List Pos
  scores : List Nat
  running : Bool
deriving DecidableEq, Repr

/-- The movement loop of `updateGame`, one iteration per snake (index
`i`).  A snake whose next head is out of bounds clears the running flag
and is returned unmoved.  Otherwise the head is looked up in the
PRE-TICK food list `prevFood`; on a hit the snake grows by the head,
its score is incremented, and the food accumulator is ASSIGNED the
pre-tick list with that one index removed (the source's
`prev.food.filter((_, index) => index !== foodIndex)`, an overwrite,
not a fold over the accumulator); on a miss the snake moves normally
(head prepended, last segment dropped). -/
def moveSnakes (prevFood : List Pos) (i : Nat) (food : List Pos)
    (scores : List Nat) (running : Bool) : List Snake → MoveOut
  | [] => { snakes := [], food := food, scores := scores, running := running }
  | snake :: rest =>
    let head := nextHeadOf snake
    if outOfBounds head then
      let m := moveSnakes prevFood (i + 1) food scores false rest
      { m with snakes := snake :: m.snakes }
    else
      match List.findIdx? (fun f => f == head) prevFood with
      | some foodIndex =>
        let m := moveSnakes prevFood (i + 1) (prevFood.eraseIdx foodIndex)
          (scores.set i (scores.getD i 0 + 1)) running rest
        { m with
          snakes := { body := head :: snake.body,
                      direction := snake.direction } :: m.snakes }
      | none =>
        let m := moveSnakes prevFood (i + 1) food scores running rest
        { m with
          snakes := { body := head :: snake.body.dropLast,
                      direction := snake.direction } :: m.snakes }

/-- Direction resolution followed by the movement loop, the first two
phases of `updateGame`. -/
def movementPhase (prev : GameState) : MoveOut :=
  moveSnakes prev.food 0 prev.food prev.scores prev.isRunning
    (resolveDirections prev)

/-- The collision scan of `updateGame`: some segment equals some other
segment at a different index of the flattened segment list. -/
def hasDuplicate (l : List Pos) : Bool :=
  l.enum.any fun s => l.enum.any fun t => s.1 != t.1 && s.2 == t.2

/-- Source `updateGame`, one full tick.  Note there is NO
running-flag guard: the movement, food spawn and collision scan run
whatever `prev.isRunning` is (the collaborator's game loop is what
refrains from calling it).  `rand` is the stream of random draws used
if the food list must be replenished; `none` means the
rejection-sampling loop found no free cell among the supplied draws.
The spawned item is pushed onto the (empty) food accumulator, hence the
singleton list. -/
def updateGame (rand : List Pos) (prev : GameState) : Option GameState :=
  (if (movementPhase prev).food.isEmpty then
      (generateFood rand (movementPhase prev).snakes []).map fun p => [p]
    else some (movementPhase prev).food).map fun food3 =>
    { prev with
      snakes := (movementPhase prev).snakes
      food := food3
      scores := (movementPhase prev).scores
      isRunning :=
        if hasDuplicate ((movementPhase prev).snakes.flatMap Snake.body) then
          false
        else (movementPhase prev).running }

/-- The data-model invariants of the specification: exactly two snakes,
one score per snake, non-empty bodies, and a non-empty food list all of
whose items lie inside the grid. -/
def GameState.WF (s : GameState) : Prop :=
  s.snakes.length = 2 ∧ s.scores.length = 2 ∧
    (∀ sn ∈ s.snakes, sn.body ≠ []) ∧ s.food ≠ [] ∧
    (∀ p ∈ s.food, inBounds p = true)

instance (s : GameState) : Decidable s.WF := by
  unfold GameState.WF; infer_instance

/-- Snake `k` of state `s` is about to eat this tick: its resolved next
head is in bounds and on some pre-tick food item. -/
def snakeEats (s : GameState) (k : Nat) : Prop :=
  outOfBounds (nextHeadOf ((resolveDirections s).getD k junkSnake)) = false ∧
    nextHeadOf ((resolveDirections s).getD k junkSnake) ∈ s.food

instance (s : GameState) (k : Nat) : Decidable (snakeEats s k) := by
  unfold snakeEats; infer_instance

/-- Fixture constructor for the concrete states used in examples below
(speed and colours fixed at the defaults of `createInitialState`). -/
def mkGameState (run : Bool) (sn : List Snake) (fd : List Pos)
    (sc : List Nat) (mode : GameMode) : GameState :=
  { isRunning := run, snakes := sn, food := fd, scores := sc, speed := 100,
    snakeColors := ("#4ade80", "#60a5fa"), gameMode := mode }

/-- The two initial snakes. -/
def exSnakes : List Snake :=
  [ { body := [(5, 5)], direction := .RIGHT },
    { body := [(34, 24)], direction := .LEFT } ]

/-- A stopped two-player state in the initial layout. -/
def exNotRunning : GameState :=
  mkGameState false exSnakes [(0, 0)] [0, 0] .MULTIPLAYER

/-- The same layout, running. -/
def exRunning : GameState :=
  mkGameState true exSnakes [(0, 0)] [0, 0] .MULTIPLAYER

/-- The state `startGame [(0, 0)] SINGLE exNotRunning` produces. -/
def exStarted : GameState :=
  mkGameState true exSnakes [(0, 0)] [0, 0] .SINGLE

/-- A running state whose snakes' heads move onto the same cell this
tick. -/
def exHeadOn : GameState :=
  mkGameState true
    [ { body := [(5, 5)], direction := .RIGHT },
      { body := [(7, 5)], direction := .LEFT } ]
    [(0, 0)] [0, 0] .MULTIPLAYER

/-- The tick result of `exHeadOn`: both heads on `(6, 5)`, stopped. -/
def exHeadOnRes : GameState :=
  mkGameState false
    [ { body := [(6, 5)], direction := .RIGHT },
      { body := [(6, 5)], direction := .LEFT } ]
    [(0, 0)] [0, 0] .MULTIPLAYER

/-- A running state whose snake 0 is about to run through the left
wall while snake 1 moves freely. -/
def exWallExit : GameState :=
  mkGameState true
    [ { body := [(0, 5)], direction := .LEFT },
      { body := [(20, 20)], direction := .LEFT } ]
    [(0, 0)] [0, 0] .MULTIPLAYER

/-- The tick result of `exWallExit`: stopped, snake 0 unmoved, snake 1
moved. -/
def exWallExitRes : GameState :=
  mkGameState false
    [ { body := [(0, 5)], direction := .LEFT },
      { body := [(19, 20)], direction := .LEFT } ]
    [(0, 0)] [0, 0] .MULTIPLAYER

/-- A running state in which both snakes' next heads land on distinct
food items of the same tick. -/
def exDoubleEat : GameState :=
  mkGameState true
    [ { body := [(5, 5)], direction := .RIGHT },
      { body := [(20, 20)], direction := .LEFT } ]
    [(6, 5), (19, 20)] [0, 0] .MULTIPLAYER

/-- The tick result of `exDoubleEat`: both snakes grew and scored, but
only snake 1's item `(19, 20)` was removed — snake 0's item `(6, 5)`
survives because the later food assignment overwrites the earlier
one. -/
def exDoubleEatRes : GameState :=
  mkGameState true
    [ { body := [(6, 5), (5, 5)], direction := .RIGHT },
      { body := [(19, 20), (20, 20)], direction := .LEFT } ]
    [(6, 5)] [1, 1] .MULTIPLAYER

/-- A running state whose snake 0 eats the only food item this tick,
forcing a respawn. -/
def exSingleEat : GameState :=
  mkGameState true
    [ { body := [(5, 5)], direction := .RIGHT },
      { body := [(20, 20)], direction := .LEFT } ]
    [(6, 5)] [0, 0] .MULTIPLAYER

/-- The tick result of `exSingleEat` with random draws `[(0, 0)]`:
snake 0 grew and scored, and the emptied food list was replenished at
`(0, 0)`. -/
def exSingleEatRes : GameState :=
  mkGameState true
    [ { body := [(6, 5), (5, 5)], direction := .RIGHT },
      { body := [(19, 20)], direction := .LEFT } ]
    [(0, 0)] [1, 0] .MULTIPLAYER

/-- The per-snake outcome of the movement loop (a snake in isolation,
given the pre-tick food list): unmoved on a wall exit, grown on a food
hit, otherwise advanced one cell. -/
def stepSnake (prevFood : List Pos) (sn : Snake) : Snake :=
  if outOfBounds (nextHeadOf sn) then sn
  else
    match List.findIdx? (fun f => f == nextHeadOf sn) prevFood with
    | some _ => { body := nextHeadOf sn :: sn.body, direction := sn.direction }
    | none =>
      { body := nextHeadOf sn :: sn.body.dropLast, direction := sn.direction }

/-- The pre-tick food index a snake eats this tick, if any: `none` on a
wall exit or a miss. -/
def eatIdx (prevFood : List Pos) (sn : Snake) : Option Nat :=
  if outOfBounds (nextHeadOf sn) then none
  else List.findIdx? (fun f => f == nextHeadOf sn) prevFood

/-! ## Helper lemmas -/

theorem opposites_ne_self (d : Direction) : opposites d ≠ d := by
  cases d <;> simp [opposites]

theorem jsMapIdxAux_getElem? (f : Nat → α → α) :
    ∀ (l : List α) (i k : Nat),
      (jsMapIdxAux f i l)[k]? = (l[k]?).map (f (i + k))
  | [], i, k => by simp [jsMapIdxAux]
  | a :: as, i, 0 => by simp [jsMapIdxAux]
  | a :: as, i, k + 1 => by
    have h := jsMapIdxAux_getElem? f as (i + 1) k
    have harith : i + 1 + k = i + (k + 1) := by omega
    rw [harith] at h
    simpa [jsMapIdxAux] using h

theorem jsMapIdxAux_eq_self (f : Nat → α → α) :
    ∀ (l : List α) (i : Nat),
      (∀ k x, l[k]? = some x → f (i + k) x = x) → jsMapIdxAux f i l = l
  | [], _, _ => rfl
  | a :: as, i, h => by
    have h0 : f i a = a := by
      have := h 0 a (by simp)
      simpa using this
    have hrec := jsMapIdxAux_eq_self f as (i + 1)
      (fun k x hx => by
        have := h (k + 1) x (by simpa using hx)
        have harith : i + (k + 1) = i + 1 + k := by omega
        rwa [harith] at this)
    simp [jsMapIdxAux, h0, hrec]

/-- The movement loop ignores the incoming running flag except for the
flag it reports: snakes, food and scores do not depend on it. -/
theorem moveSnakes_indep (pf : List Pos) :
    ∀ (sns : List Snake) (i : Nat) (food : List Pos) (sc : List Nat)
      (r1 r2 : Bool),
      (moveSnakes pf i food sc r1 sns).snakes =
          (moveSnakes pf i food sc r2 sns).snakes ∧
        (moveSnakes pf i food sc r1 sns).food =
          (moveSnakes pf i food sc r2 sns).food ∧
        (moveSnakes pf i food sc r1 sns).scores =
          (moveSnakes pf i food sc r2 sns).scores := by
  intro sns
  induction sns with
  | nil => intro i food sc r1 r2; exact ⟨rfl, rfl, rfl⟩
  | cons snake rest ih =>
    intro i food sc r1 r2
    simp only [moveSnakes]
    split
    · exact ⟨rfl, rfl, rfl⟩
    · split
      · obtain ⟨a, b, c⟩ := ih (i + 1) _ _ r1 r2
        exact ⟨by simpa using a, b, c⟩
      · obtain ⟨a, b, c⟩ := ih (i + 1) food sc r1 r2
        exact ⟨by simpa using a, b, c⟩

theorem resolveDirections_isRunning (s : GameState) (b : Bool) :
    resolveDirections { s with isRunning := b } = resolveDirections s := rfl

theorem movementPhase_isRunning (s : GameState) (b : Bool) :
    (movementPhase { s with isRunning := b }).snakes =
        (movementPhase s).snakes ∧
      (movementPhase { s with isRunning := b }).food =
        (movementPhase s).food ∧
      (movementPhase { s with isRunning := b }).scores =
        (movementPhase s).scores := by
  show (moveSnakes s.food 0 s.food s.scores b
      (resolveDirections { s with isRunning := b })).snakes = _ ∧ _ ∧ _
  rw [resolveDirections_isRunning]
  exact moveSnakes_indep s.food (resolveDirections s) 0 s.food s.scores b
    s.isRunning

/-- Characterisation of a successful tick in terms of the movement
phase. -/
theorem updateGame_some {rand : List Pos} {prev s' : GameState}
    (h : updateGame rand prev = some s') :
    s'.snakes = (movementPhase prev).snakes ∧
      s'.scores = (movementPhase prev).scores ∧
      s'.isRunning =
        (if hasDuplicate ((movementPhase prev).snakes.flatMap Snake.body) then
          false
        else (movementPhase prev).running) ∧
      s'.speed = prev.speed ∧ s'.snakeColors = prev.snakeColors ∧
      s'.gameMode = prev.gameMode ∧
      ((movementPhase prev).food = [] →
        ∃ p, generateFood rand (movementPhase prev).snakes [] = some p ∧
          s'.food = [p]) ∧
      ((movementPhase prev).food ≠ [] →
        s'.food = (movementPhase prev).food) := by
  unfold updateGame at h
  rw [Option.map_eq_some'] at h
  obtain ⟨food3, hf, hs⟩ := h
  subst hs
  refine ⟨rfl, rfl, rfl, rfl, rfl, rfl, ?_, ?_⟩
  · intro hempty
    rw [if_pos (by simpa [List.isEmpty_iff] using hempty)] at hf
    rw [Option.map_eq_some'] at hf
    obtain ⟨p, hp, hp3⟩ := hf
    exact ⟨p, hp, by simp [← hp3]⟩
  · intro hne
    rw [if_neg (by simpa [List.isEmpty_iff] using hne)] at hf
    simpa using hf.symm

/-! ## C1 -/

/-- C1 (amended): `tick()` does not consult the running flag.  For
every state, every field of the ticked state other than `isRunning`
itself is the same whether the input running flag is true or false: the
movement, food and collision logic runs unconditionally.  The
no-op-when-not-running behaviour of the deployed game comes from the
collaborator's loop, which refrains from calling `tick()`, not from
the core. -/
theorem updateGame_ignores_isRunning (rand : List Pos) (s : GameState)
    (b : Bool) :
    (updateGame rand { s with isRunning := b }).map
        (fun t => { t with isRunning := false }) =
      (updateGame rand s).map (fun t => { t with isRunning := false }) := by
  obtain ⟨h1, h2, h3⟩ := movementPhase_isRunning s b
  unfold updateGame
  rw [h1, h2, h3, Option.map_map, Option.map_map]
  rfl

/-- C1 (counterexample): a stopped state that `tick()` nevertheless
changes — both snakes move.  This refutes "once `isRunning` is false,
`tick()` never changes any field of the state". -/
theorem updateGame_changes_stopped_state :
    exNotRunning.isRunning = false ∧
      updateGame [] exNotRunning =
        some (mkGameState false
          [ { body := [(6, 5)], direction := .RIGHT },
            { body := [(33, 24)], direction := .LEFT } ]
          [(0, 0)] [0, 0] .MULTIPLAYER) ∧
      mkGameState false
          [ { body := [(6, 5)], direction := .RIGHT },
            { body := [(33, 24)], direction := .LEFT } ]
          [(0, 0)] [0, 0] .MULTIPLAYER ≠ exNotRunning := by
  refine ⟨rfl, by decide, by decide⟩

/-! ## C2 -/

/-- C2 (counterexample): `setDirection` is applied even when the game
is not running — the claimed "no-op when not running" fails.  In the
stopped state, requesting `UP` for snake 0 (whose direction is `RIGHT`,
so no reversal) produces a changed state. -/
theorem setSnakeDirection_applies_when_stopped :
    exNotRunning.isRunning = false ∧
      setSnakeDirection 0 Direction.UP exNotRunning =
        some (mkGameState false
          [ { body := [(5, 5)], direction := .UP },
            { body := [(34, 24)], direction := .LEFT } ]
          [(0, 0)] [0, 0] .MULTIPLAYER) ∧
      mkGameState false
          [ { body := [(5, 5)], direction := .UP },
            { body := [(34, 24)], direction := .LEFT } ]
          [(0, 0)] [0, 0] .MULTIPLAYER ≠ exNotRunning := by
  refine ⟨rfl, by decide, by decide⟩

/-- C2 (amended): `setDirection` never consults the running flag.  For
a valid snake index it leaves the state (structurally) unchanged iff
the requested direction is the snake's current direction or its exact
opposite; otherwise it replaces only that snake's direction.  For an
out-of-range index the source throws (modelled as `none`) instead of
silently no-oping. -/
theorem setSnakeDirection_characterization (s : GameState) (i : Nat)
    (d : Direction) :
    (∀ snake, s.snakes[i]? = some snake →
      ((setSnakeDirection i d s = some s ↔
          (d = snake.direction ∨ opposites snake.direction = d)) ∧
        (opposites snake.direction ≠ d →
          setSnakeDirection i d s =
            some { s with
              snakes := jsMapIdx
                (fun index sn =>
                  if index = i then { sn with direction := d } else sn)
                s.snakes }))) ∧
    (s.snakes[i]? = none → setSnakeDirection i d s = none) := by
  constructor
  · intro snake hsnake
    have hupd : opposites snake.direction ≠ d →
        setSnakeDirection i d s =
          some { s with
            snakes := jsMapIdx
              (fun index sn =>
                if index = i then { sn with direction := d } else sn)
              s.snakes } := by
      intro hop
      unfold setSnakeDirection
      rw [hsnake, Option.map_some', if_neg hop]
    refine ⟨?_, hupd⟩
    by_cases hop : opposites snake.direction = d
    · unfold setSnakeDirection
      rw [hsnake, Option.map_some', if_pos hop]
      simp [hop]
    · rw [hupd hop]
      simp only [Option.some.injEq]
      constructor
      · intro heq
        have hl : jsMapIdx
            (fun index sn =>
              if index = i then { sn with direction := d } else sn)
            s.snakes = s.snakes := by
          cases s
          simpa [GameState.mk.injEq] using heq
        have hgi := congrArg (fun l => l[i]?) hl
        simp only [jsMapIdx, jsMapIdxAux_getElem? _ _ 0 i, Nat.zero_add,
          hsnake, Option.map_some', if_pos rfl] at hgi
        have : ({ snake with direction := d } : Snake) = snake := by
          simpa using hgi
        left
        have := congrArg Snake.direction this
        simpa using this
      · intro hcase
        rcases hcase with hd | hd
        · subst hd
          have hself : jsMapIdx
              (fun index sn =>
                if index = i then { sn with direction := snake.direction }
                else sn)
              s.snakes = s.snakes := by
            refine jsMapIdxAux_eq_self _ s.snakes 0 ?_
            intro k x hx
            simp only [Nat.zero_add]
            by_cases hk : k = i
            · subst hk
              rw [hsnake] at hx
              have hx' : snake = x := by simpa using hx
              subst hx'
              simp
            · simp [hk]
          rw [hself]
        · exact absurd hd hop
  · intro hnone
    unfold setSnakeDirection
    rw [hnone, Option.map_none']

/-- C2 (witness): instantiating the characterisation at the stopped
state — valid index 0, `UP` against current `RIGHT` is neither the
current direction nor its opposite, so the direction is replaced. -/
theorem setSnakeDirection_characterization_witness :
    exNotRunning.snakes[0]? =
        some { body := [(5, 5)], direction := .RIGHT } ∧
      setSnakeDirection 0 Direction.UP exNotRunning =
        some { exNotRunning with
          snakes := jsMapIdx
            (fun index sn =>
              if index = 0 then { sn with direction := Direction.UP }
              else sn)
            exNotRunning.snakes } := by
  refine ⟨by decide, ?_⟩
  exact ((setSnakeDirection_characterization exNotRunning 0
    Direction.UP).1 { body := [(5, 5)], direction := .RIGHT }
    (by decide)).2 (by decide)

/-! ## C3 -/

/-- C3 (counterexample): after `start(SINGLE)` snake 1's body is
`[[34, 24]]` — the source places it at `(GRID_WIDTH - 6,
GRID_HEIGHT - 6) = (34, 24)` — not `[[34, 23]]` as claimed. -/
theorem startGame_single_snake1_position :
    startGame [(0, 0)] GameMode.SINGLE exNotRunning = some exStarted ∧
      (exStarted.snakes.getD 1 junkSnake).body ≠ [((34 : Int), (23 : Int))] := by
  refine ⟨by decide, by decide⟩

/-- C3 (amended): after `start(SINGLE)` the state has snake 0 with body
`[[5, 5]]` facing `RIGHT`, snake 1 with body `[[34, 24]]` facing
`LEFT`, exactly one food item at a cell occupied by neither snake,
scores `[0, 0]`, running, and the previously configured speed and
colours preserved (the hypothesis is that the rejection sampling found
a free cell among the supplied draws). -/
theorem startGame_single_initial_state (rand : List Pos)
    (prev s' : GameState)
    (h : startGame rand GameMode.SINGLE prev = some s') :
    s'.snakes =
        [ { body := [(5, 5)], direction := .RIGHT },
          { body := [(34, 24)], direction := .LEFT } ] ∧
      (∃ p, s'.food = [p] ∧ isPositionOccupied p s'.snakes [] = false) ∧
      s'.scores = [0, 0] ∧ s'.isRunning = true ∧
      s'.speed = prev.speed ∧ s'.snakeColors = prev.snakeColors ∧
      s'.gameMode = GameMode.SINGLE := by
  unfold startGame createInitialState at h
  rw [Option.map_map, Option.map_eq_some'] at h
  obtain ⟨f, hf, hs⟩ := h
  have hocc := List.find?_some hf
  subst hs
  refine ⟨?_, ⟨f, rfl, ?_⟩, rfl, rfl, rfl, rfl, rfl⟩
  · simp only [Function.comp_apply]
    decide
  · simpa using hocc

/-- C3 (witness): the amended initial-state facts hold concretely when
the first random draw is the free cell `(0, 0)`. -/
theorem startGame_single_initial_state_witness :
    startGame [(0, 0)] GameMode.SINGLE exNotRunning = some exStarted ∧
      exStarted.scores = [0, 0] ∧ exStarted.isRunning = true ∧
      exStarted.speed = exNotRunning.speed :=
  ⟨by decide,
    (startGame_single_initial_state [(0, 0)] exNotRunning exStarted
      (by decide)).2.2.1,
    (startGame_single_initial_state [(0, 0)] exNotRunning exStarted
      (by decide)).2.2.2.1,
    (startGame_single_initial_state [(0, 0)] exNotRunning exStarted
      (by decide)).2.2.2.2.1⟩

/-! ## C4 -/

/-- C4 (counterexample): `placeFood` does NOT re-validate bounds.  In a
running state, the out-of-grid position `(100, 100)` collides with
nothing, so the source appends it — the claimed no-op for positions
outside `[0,40)×[0,30)` fails. -/
theorem setFoodPosition_no_bounds_check :
    exRunning.isRunning = true ∧ outOfBounds (100, 100) = true ∧
      isPositionOccupied (100, 100) exRunning.snakes exRunning.food = false ∧
      setFoodPosition (100, 100) exRunning ≠ exRunning := by
  refine ⟨rfl, by decide, by decide, by decide⟩

/-- C4 (amended): `placeFood(p)` leaves the state unchanged iff the
game is not running or `p` coincides with a snake segment or an
existing food item; in every other case — including `p` outside the
grid, which the core does not check — it appends exactly one food item
at `p`.  Bounds checking is solely the collaborator's. -/
theorem setFoodPosition_characterization (s : GameState) (p : Pos) :
    (setFoodPosition p s = s ↔
      (s.isRunning = false ∨ isPositionOccupied p s.snakes s.food = true)) ∧
    (s.isRunning = true → isPositionOccupied p s.snakes s.food = false →
      setFoodPosition p s = { s with food := s.food ++ [p] }) := by
  have happ : s.isRunning = true →
      isPositionOccupied p s.snakes s.food = false →
      setFoodPosition p s = { s with food := s.food ++ [p] } := by
    intro h1 h2
    unfold setFoodPosition
    rw [if_neg (by simp [h1]), h2]
    simp
  refine ⟨?_, happ⟩
  by_cases h1 : s.isRunning = false
  · unfold setFoodPosition
    rw [if_pos h1]
    simp [h1]
  · have h1' : s.isRunning = true := by
      revert h1; cases s.isRunning <;> simp
    by_cases h2 : isPositionOccupied p s.snakes s.food
    · unfold setFoodPosition
      rw [if_neg (by simp [h1']), if_pos h2]
      simp [h1', h2]
    · rw [happ h1' (by simpa using h2)]
      simp only [h1', Bool.true_eq_false, false_or]
      constructor
      · intro heq
        exfalso
        have hlen := congrArg (fun t => t.food.length) heq
        simp at hlen
      · intro hov
        exact absurd hov (by simpa using h2)

/-- C4 (witness): appending at the free in-grid cell `(3, 3)` in the
running state. -/
theorem setFoodPosition_characterization_witness :
    exRunning.isRunning = true ∧
      isPositionOccupied ((3 : Int), (3 : Int)) exRunning.snakes
        exRunning.food = false ∧
      setFoodPosition (3, 3) exRunning =
        { exRunning with food := exRunning.food ++ [(3, 3)] } :=
  ⟨rfl, by decide,
    (setFoodPosition_characterization exRunning (3, 3)).2 rfl (by decide)⟩

/-! ## Movement-phase helper lemmas -/

theorem findIdx?_beq_none_iff (hd : Pos) (l : List Pos) :
    List.findIdx? (fun f => f == hd) l = none ↔ hd ∉ l := by
  rw [List.findIdx?_eq_none_iff]
  constructor
  · intro h hmem
    have := h hd hmem
    simp at this
  · intro h x hx
    simp only [beq_eq_false_iff_ne, ne_eq]
    intro hxe
    exact h (hxe ▸ hx)

theorem findIdx?_beq_some_facts {hd : Pos} {l : List Pos} {j : Nat}
    (h : List.findIdx? (fun f => f == hd) l = some j) :
    j < l.length ∧ l.getD j (0, 0) = hd ∧ hd ∈ l := by
  rw [List.findIdx?_eq_some_iff_getElem] at h
  obtain ⟨hj, hbeq, -⟩ := h
  have hje : l[j] = hd := by simpa using hbeq
  refine ⟨hj, ?_, hje ▸ List.getElem_mem hj⟩
  rw [List.getD_eq_getElem?_getD, List.getElem?_eq_getElem hj]
  simpa using hje

/-- In a two-snake state, direction resolution only (possibly)
rewrites directions; the bodies are the pre-tick bodies. -/
theorem resolveDirections_two (s : GameState) (a b : Snake)
    (hs : s.snakes = [a, b]) :
    ∃ d0 d1, resolveDirections s =
      [{ a with direction := d0 }, { b with direction := d1 }] := by
  unfold resolveDirections
  cases hm : s.gameMode
  case SINGLE =>
    refine ⟨a.direction, getNextDirection b s.food a, ?_⟩
    rw [hs]
    simp [jsMapIdx, jsMapIdxAux]
  case MULTIPLAYER =>
    exact ⟨a.direction, b.direction, by rw [hs]⟩
  case AI_VS_AI =>
    refine ⟨getNextDirection a s.food b, getNextDirection b s.food a, ?_⟩
    rw [hs]
    simp [jsMapIdx, jsMapIdxAux]

/-- Full characterisation of the movement loop on a two-snake list:
each snake steps independently (`stepSnake`), the food accumulator is
the pre-tick list minus the *last* eater's index (the later assignment
overwrites the earlier), the scores increment per eater, and the
running flag survives iff no snake exited the grid. -/
theorem moveSnakes_pair (pf food : List Pos) (sc : List Nat) (r : Bool)
    (a b : Snake) :
    moveSnakes pf 0 food sc r [a, b] =
      { snakes := [stepSnake pf a, stepSnake pf b]
        food :=
          match eatIdx pf b with
          | some jb => pf.eraseIdx jb
          | none =>
            match eatIdx pf a with
            | some ja => pf.eraseIdx ja
            | none => food
        scores :=
          let sc1 :=
            match eatIdx pf a with
            | some _ => sc.set 0 (sc.getD 0 0 + 1)
            | none => sc
          match eatIdx pf b with
          | some _ => sc1.set 1 (sc1.getD 1 0 + 1)
          | none => sc1
        running :=
          r && !outOfBounds (nextHeadOf a) && !outOfBounds (nextHeadOf b) } := by
  cases ha : outOfBounds (nextHeadOf a) <;>
    cases hb : outOfBounds (nextHeadOf b)
  case false.false =>
    cases hfa : List.findIdx? (fun f => f == nextHeadOf a) pf <;>
      cases hfb : List.findIdx? (fun f => f == nextHeadOf b) pf <;>
        simp [moveSnakes, stepSnake, eatIdx, ha, hb, hfa, hfb]
  case false.true =>
    cases hfa : List.findIdx? (fun f => f == nextHeadOf a) pf <;>
      simp [moveSnakes, stepSnake, eatIdx, ha, hb, hfa]
  case true.false =>
    cases hfb : List.findIdx? (fun f => f == nextHeadOf b) pf <;>
      simp [moveSnakes, stepSnake, eatIdx, ha, hb, hfb]
  case true.true =>
    simp [moveSnakes, stepSnake, eatIdx, ha, hb]

/-- The two-snake unfolding of the first two tick phases. -/
theorem movementPhase_two (s : GameState) (a b : Snake)
    (hs : s.snakes = [a, b]) :
    ∃ d0 d1,
      resolveDirections s =
          [{ a with direction := d0 }, { b with direction := d1 }] ∧
        movementPhase s =
          moveSnakes s.food 0 s.food s.scores s.isRunning
            [{ a with direction := d0 }, { b with direction := d1 }] := by
  obtain ⟨d0, d1, hres⟩ := resolveDirections_two s a b hs
  refine ⟨d0, d1, hres, ?_⟩
  unfold movementPhase
  rw [hres]

theorem mem_enum_self {α : Type _} (l : List α) (i : Fin l.length) :
    ((i : Nat), l.get i) ∈ l.enum := by
  have hlen : (i : Nat) < l.enum.length := by
    simp [List.enum_length]
  have hmem := List.getElem_mem hlen
  rwa [List.getElem_enum, ← List.get_eq_getElem] at hmem

theorem hasDuplicate_of_get {l : List Pos} {i j : Fin l.length}
    (hne : i ≠ j) (heq : l.get i = l.get j) : hasDuplicate l = true := by
  unfold hasDuplicate
  rw [List.any_eq_true]
  refine ⟨((i : Nat), l.get i), mem_enum_self l i, ?_⟩
  rw [List.any_eq_true]
  refine ⟨((j : Nat), l.get j), mem_enum_self l j, ?_⟩
  have hv : (i : Nat) ≠ (j : Nat) := fun hv => hne (Fin.ext hv)
  have heq' : l[(i : Nat)] = l[(j : Nat)] := by
    simpa [List.get_eq_getElem] using heq
  simp [hv, heq']

theorem getD_mem_eraseIdx {l : List Pos} {i j : Nat} (hi : i < l.length)
    (hne : i ≠ j) : l.getD i (0, 0) ∈ l.eraseIdx j := by
  have hget : l[i]? = some (l.get (Fin.mk i hi)) :=
    List.getElem?_eq_getElem hi
  have hgd : l.getD i (0, 0) = l.get (Fin.mk i hi) := by
    rw [List.getD_eq_getElem?_getD, hget]
    rfl
  rcases Nat.lt_or_ge i j with hij | hij
  · have h1 : (l.eraseIdx j)[i]? = l[i]? :=
      List.getElem?_eraseIdx_of_lt l j i hij
    exact List.mem_iff_getElem?.mpr ⟨i, by rw [h1, hget, hgd]⟩
  · have hji : j ≤ i - 1 := by omega
    have h1 : (l.eraseIdx j)[i - 1]? = l[(i - 1) + 1]? :=
      List.getElem?_eraseIdx_of_ge l j (i - 1) hji
    have h2 : (i - 1) + 1 = i := by omega
    rw [h2] at h1
    exact List.mem_iff_getElem?.mpr ⟨i - 1, by rw [h1, hget, hgd]⟩

/-! ## C7 -/

/-- C7 (confirmed): if after the movement phase any two distinct
positions of the flattened segment list coincide — same snake or
different snakes — the tick reports `isRunning = false`,
unconditionally (in particular even when a wall exit already cleared
the flag, since the collision branch overrides whatever the movement
phase produced). -/
theorem tick_collision_stops_game (rand : List Pos) (s s' : GameState)
    (_hwf : s.WF) (_hrun : s.isRunning = true)
    (h : updateGame rand s = some s')
    (i j : Fin ((movementPhase s).snakes.flatMap Snake.body).length)
    (hne : i ≠ j)
    (heq : ((movementPhase s).snakes.flatMap Snake.body).get i =
      ((movementPhase s).snakes.flatMap Snake.body).get j) :
    s'.isRunning = false := by
  obtain ⟨-, -, hr, -⟩ := updateGame_some h
  rw [hr, hasDuplicate_of_get hne heq]
  simp

/-- C7 (witness): the head-on state — both heads move onto `(6, 5)` in
the same tick and the game stops. -/
theorem tick_collision_stops_game_witness :
    GameState.WF exHeadOn ∧ updateGame [] exHeadOn = some exHeadOnRes ∧
      exHeadOnRes.isRunning = false :=
  ⟨by decide, by decide,
    tick_collision_stops_game [] exHeadOn exHeadOnRes (by decide) rfl
      (by decide) ⟨0, by decide⟩ ⟨1, by decide⟩ (by decide) (by decide)⟩

/-! ## C6 -/

/-- C6 (confirmed): in a running two-snake state, a snake whose
resolved next head lies outside the grid leaves the tick with
`isRunning = false` and its own body exactly the pre-tick body, while
a snake whose next head stays inside the grid still moves normally in
the same tick (growing on a food hit, else advancing one cell). -/
theorem tick_wall_exit_stops_game (rand : List Pos) (s s' : GameState)
    (hwf : s.WF) (_hrun : s.isRunning = true)
    (h : updateGame rand s = some s') (i : Nat) (hi : i < 2)
    (hout :
      outOfBounds (nextHeadOf ((resolveDirections s).getD i junkSnake)) =
        true) :
    s'.isRunning = false ∧
      (s'.snakes.getD i junkSnake).body = (s.snakes.getD i junkSnake).body ∧
      (∀ j, j < 2 → j ≠ i →
        outOfBounds (nextHeadOf ((resolveDirections s).getD j junkSnake)) =
          false →
        (s'.snakes.getD j junkSnake).body =
          (if nextHeadOf ((resolveDirections s).getD j junkSnake) ∈ s.food
            then
              nextHeadOf ((resolveDirections s).getD j junkSnake) ::
                (s.snakes.getD j junkSnake).body
            else
              nextHeadOf ((resolveDirections s).getD j junkSnake) ::
                (s.snakes.getD j junkSnake).body.dropLast)) := by
  obtain ⟨hlen, hslen, hbodies, hfne, hfin⟩ := hwf
  obtain ⟨a, b, hs⟩ := List.length_eq_two.mp hlen
  obtain ⟨d0, d1, hres, hmp⟩ := movementPhase_two s a b hs
  rw [moveSnakes_pair] at hmp
  obtain ⟨hsn, hsc, hr, -⟩ := updateGame_some h
  interval_cases i
  · rw [hres] at hout
    simp only [List.getD_cons_zero] at hout
    refine ⟨?_, ?_, ?_⟩
    · rw [hr, hmp]
      simp [hout]
    · rw [hsn, hmp, hs]
      simp [stepSnake, hout]
    · intro j hj hjne hjout
      have hj1 : j = 1 := by omega
      subst hj1
      rw [hres] at hjout
      simp only [List.getD_cons_succ, List.getD_cons_zero] at hjout
      rw [hsn, hmp, hs, hres]
      simp only [List.getD_cons_succ, List.getD_cons_zero]
      unfold stepSnake
      rw [if_neg (by simp [hjout])]
      cases hfb : List.findIdx?
          (fun f => f == nextHeadOf { b with direction := d1 }) s.food with
      | some k =>
        have hmem := (findIdx?_beq_some_facts hfb).2.2
        rw [if_pos hmem]
      | none =>
        have hmem := (findIdx?_beq_none_iff _ _).mp hfb
        rw [if_neg hmem]
  · rw [hres] at hout
    simp only [List.getD_cons_succ, List.getD_cons_zero] at hout
    refine ⟨?_, ?_, ?_⟩
    · rw [hr, hmp]
      simp [hout]
    · rw [hsn, hmp, hs]
      simp [stepSnake, hout]
    · intro j hj hjne
      have hj0 : j = 0 := by omega
      subst hj0
      intro hjout
      rw [hres] at hjout
      simp only [List.getD_cons_zero] at hjout
      rw [hsn, hmp, hs, hres]
      simp only [List.getD_cons_zero]
      unfold stepSnake
      rw [if_neg (by simp [hjout])]
      cases hfa : List.findIdx?
          (fun f => f == nextHeadOf { a with direction := d0 }) s.food with
      | some k =>
        have hmem := (findIdx?_beq_some_facts hfa).2.2
        rw [if_pos hmem]
      | none =>
        have hmem := (findIdx?_beq_none_iff _ _).mp hfa
        rw [if_neg hmem]

/-- C6 (witness): snake 0 runs through the left wall while snake 1
moves on; the game stops and snake 0's body is untouched. -/
theorem tick_wall_exit_stops_game_witness :
    GameState.WF exWallExit ∧
      updateGame [] exWallExit = some exWallExitRes ∧
      exWallExitRes.isRunning = false ∧
      (exWallExitRes.snakes.getD 0 junkSnake).body =
        (exWallExit.snakes.getD 0 junkSnake).body := by
  refine ⟨by decide, by decide, ?_, ?_⟩
  · exact (tick_wall_exit_stops_game [] exWallExit exWallExitRes (by decide)
      rfl (by decide) 0 (by decide) (by decide)).1
  · exact (tick_wall_exit_stops_game [] exWallExit exWallExitRes (by decide)
      rfl (by decide) 0 (by decide) (by decide)).2.1

/-! ## C5 -/

/-- C5 (counterexample): a tick in which both snakes eat (distinct
pre-tick items).  Snake 0's head lands exactly on the pre-tick food
item of index 0, `(6, 5)`, yet after the tick that item is STILL in
the food list: each eater assigns `prev.food` minus its own index to
the food accumulator, and the later assignment overwrites the earlier
one.  This refutes the unconditional "that food item is removed". -/
theorem tick_double_eat_item_not_removed :
    updateGame [] exDoubleEat = some exDoubleEatRes ∧
      List.findIdx?
        (fun f => f ==
          nextHeadOf ((resolveDirections exDoubleEat).getD 0 junkSnake))
        exDoubleEat.food = some 0 ∧
      (6, 5) ∈ exDoubleEatRes.food := by
  refine ⟨by decide, by decide, by decide⟩

/-- C5 (amended): in a running two-snake state, a snake whose resolved
next head is on no pre-tick food item keeps its body length and score;
a snake whose next head is on a pre-tick food item (first match at
index `j`) gets the new head prepended to its full previous body
(length + 1) and its score incremented by 1, and — provided no
higher-indexed snake also eats that tick — the movement-phase food
list is the pre-tick list with index `j` removed.  (When a later snake
also eats, its overwrite wins; see the counterexample and C10.) -/
theorem tick_growth_and_score (rand : List Pos) (s s' : GameState)
    (hwf : s.WF) (_hrun : s.isRunning = true)
    (h : updateGame rand s = some s') (i : Nat) (hi : i < 2) :
    (nextHeadOf ((resolveDirections s).getD i junkSnake) ∉ s.food →
      (s'.snakes.getD i junkSnake).body.length =
          (s.snakes.getD i junkSnake).body.length ∧
        s'.scores.getD i 0 = s.scores.getD i 0) ∧
    (∀ j, List.findIdx?
        (fun f => f == nextHeadOf ((resolveDirections s).getD i junkSnake))
        s.food = some j →
      (s'.snakes.getD i junkSnake).body =
          nextHeadOf ((resolveDirections s).getD i junkSnake) ::
            (s.snakes.getD i junkSnake).body ∧
        s'.scores.getD i 0 = s.scores.getD i 0 + 1 ∧
        ((∀ k, i < k → k < 2 → ¬ snakeEats s k) →
          (movementPhase s).food = s.food.eraseIdx j)) := by
  obtain ⟨hlen, hslen, hbodies, hfne, hfin⟩ := hwf
  obtain ⟨a, b, hs⟩ := List.length_eq_two.mp hlen
  obtain ⟨x, y, hscores⟩ := List.length_eq_two.mp hslen
  obtain ⟨d0, d1, hres, hmp⟩ := movementPhase_two s a b hs
  rw [moveSnakes_pair] at hmp
  obtain ⟨hsn, hsc, -, -⟩ := updateGame_some h
  have hbodyA : a.body ≠ [] := hbodies a (by rw [hs]; simp)
  have hbodyB : b.body ≠ [] := hbodies b (by rw [hs]; simp)
  interval_cases i
  · constructor
    · intro hnot
      rw [hres] at hnot
      simp only [List.getD_cons_zero] at hnot
      have hfa : List.findIdx?
          (fun f => f == nextHeadOf { a with direction := d0 }) s.food =
            none := (findIdx?_beq_none_iff _ _).mpr hnot
      constructor
      · rw [hsn, hmp, hs]
        simp only [List.getD_cons_zero]
        unfold stepSnake
        cases hoa : outOfBounds (nextHeadOf { a with direction := d0 }) with
        | true => simp
        | false =>
          rw [hfa]
          simp only [Bool.false_eq_true, if_false, List.length_cons,
            List.length_dropLast]
          have hpos : 0 < a.body.length := List.length_pos.mpr hbodyA
          omega
      · rw [hsc, hmp, hscores]
        have hea : eatIdx s.food { a with direction := d0 } = none := by
          unfold eatIdx
          split
          · rfl
          · exact hfa
        simp only [hea]
        cases heb : eatIdx s.food { b with direction := d1 } <;>
          simp [heb, List.set]
    · intro j hfj
      rw [hres] at hfj
      simp only [List.getD_cons_zero] at hfj
      have hmem : nextHeadOf { a with direction := d0 } ∈ s.food :=
        (findIdx?_beq_some_facts hfj).2.2
      have hoa : outOfBounds (nextHeadOf { a with direction := d0 }) =
          false := by
        have := hfin _ hmem
        simpa [inBounds] using this
      have hea : eatIdx s.food { a with direction := d0 } = some j := by
        unfold eatIdx
        rw [if_neg (by simp [hoa])]
        exact hfj
      refine ⟨?_, ?_, ?_⟩
      · rw [hsn, hmp, hs, hres]
        simp only [List.getD_cons_zero]
        unfold stepSnake
        rw [if_neg (by simp [hoa]), hfj]
      · rw [hsc, hmp, hscores]
        simp only [hea]
        cases heb : eatIdx s.food { b with direction := d1 } <;>
          simp [heb, List.set]
      · intro hnol
        have hnb := hnol 1 (by omega) (by omega)
        have heb : eatIdx s.food { b with direction := d1 } = none := by
          unfold eatIdx
          split
          · rfl
          · rename_i hoob
            cases hfbv : List.findIdx?
                (fun f => f == nextHeadOf { b with direction := d1 })
                s.food with
            | none => rfl
            | some k =>
              exfalso
              apply hnb
              unfold snakeEats
              rw [hres]
              simp only [List.getD_cons_succ, List.getD_cons_zero]
              exact ⟨by simpa using hoob,
                (findIdx?_beq_some_facts hfbv).2.2⟩
        rw [hmp]
        simp only [heb, hea]
  · constructor
    · intro hnot
      rw [hres] at hnot
      simp only [List.getD_cons_succ, List.getD_cons_zero] at hnot
      have hfb : List.findIdx?
          (fun f => f == nextHeadOf { b with direction := d1 }) s.food =
            none := (findIdx?_beq_none_iff _ _).mpr hnot
      constructor
      · rw [hsn, hmp, hs]
        simp only [List.getD_cons_succ, List.getD_cons_zero]
        unfold stepSnake
        cases hob : outOfBounds (nextHeadOf { b with direction := d1 }) with
        | true => simp
        | false =>
          rw [hfb]
          simp only [Bool.false_eq_true, if_false, List.length_cons,
            List.length_dropLast]
          have hpos : 0 < b.body.length := List.length_pos.mpr hbodyB
          omega
      · rw [hsc, hmp, hscores]
        have heb : eatIdx s.food { b with direction := d1 } = none := by
          unfold eatIdx
          split
          · rfl
          · exact hfb
        simp only [heb]
        cases hea : eatIdx s.food { a with direction := d0 } <;>
          simp [hea, List.set]
    · intro j hfj
      rw [hres] at hfj
      simp only [List.getD_cons_succ, List.getD_cons_zero] at hfj
      have hmem : nextHeadOf { b with direction := d1 } ∈ s.food :=
        (findIdx?_beq_some_facts hfj).2.2
      have hob : outOfBounds (nextHeadOf { b with direction := d1 }) =
          false := by
        have := hfin _ hmem
        simpa [inBounds] using this
      have heb : eatIdx s.food { b with direction := d1 } = some j := by
        unfold eatIdx
        rw [if_neg (by simp [hob])]
        exact hfj
      refine ⟨?_, ?_, ?_⟩
      · rw [hsn, hmp, hs, hres]
        simp only [List.getD_cons_succ, List.getD_cons_zero]
        unfold stepSnake
        rw [if_neg (by simp [hob]), hfj]
      · rw [hsc, hmp, hscores]
        simp only [heb]
        cases hea : eatIdx s.food { a with direction := d0 } <;>
          simp [hea, List.set]
      · intro _
        rw [hmp]
        simp only [heb]

/-- C5 (witness): the single-eat tick — snake 0 eats `(6, 5)`, its
body becomes `[(6, 5), (5, 5)]` and its score 1. -/
theorem tick_growth_and_score_witness :
    GameState.WF exSingleEat ∧
      (exSingleEatRes.snakes.getD 0 junkSnake).body = [(6, 5), (5, 5)] ∧
      exSingleEatRes.scores.getD 0 0 = 1 := by
  refine ⟨by decide, ?_, ?_⟩
  · have h := (tick_growth_and_score [(0, 0)] exSingleEat exSingleEatRes
      (by decide) rfl (by decide) 0 (by decide)).2 0 (by decide)
    exact h.1.trans (by decide)
  · have h := (tick_growth_and_score [(0, 0)] exSingleEat exSingleEatRes
      (by decide) rfl (by decide) 0 (by decide)).2 0 (by decide)
    exact h.2.1.trans (by decide)

/-! ## C10 -/

/-- C10 (confirmed): when both snakes' resolved next heads land on
pre-tick food items at distinct indices `i0` (snake 0) and `i1`
(snake 1), the movement-phase food list is the pre-tick list with ONLY
index `i1` removed — snake 0's item survives, because each removal is
computed from the pre-tick list and the later assignment overwrites
the earlier one — while both snakes still grow by one and both scores
increase by one. -/
theorem tick_double_eat_overwrite (rand : List Pos) (s s' : GameState)
    (hwf : s.WF) (_hrun : s.isRunning = true)
    (h : updateGame rand s = some s') (i0 i1 : Nat)
    (hf0 : List.findIdx?
      (fun f => f == nextHeadOf ((resolveDirections s).getD 0 junkSnake))
      s.food = some i0)
    (hf1 : List.findIdx?
      (fun f => f == nextHeadOf ((resolveDirections s).getD 1 junkSnake))
      s.food = some i1)
    (hne : i0 ≠ i1) :
    (movementPhase s).food = s.food.eraseIdx i1 ∧
      s.food.getD i0 (0, 0) ∈ (movementPhase s).food ∧
      (s'.snakes.getD 0 junkSnake).body =
        nextHeadOf ((resolveDirections s).getD 0 junkSnake) ::
          (s.snakes.getD 0 junkSnake).body ∧
      (s'.snakes.getD 1 junkSnake).body =
        nextHeadOf ((resolveDirections s).getD 1 junkSnake) ::
          (s.snakes.getD 1 junkSnake).body ∧
      s'.scores.getD 0 0 = s.scores.getD 0 0 + 1 ∧
      s'.scores.getD 1 0 = s.scores.getD 1 0 + 1 := by
  obtain ⟨hlen, hslen, hbodies, hfne, hfin⟩ := hwf
  obtain ⟨a, b, hs⟩ := List.length_eq_two.mp hlen
  obtain ⟨x, y, hscores⟩ := List.length_eq_two.mp hslen
  obtain ⟨d0, d1, hres, hmp⟩ := movementPhase_two s a b hs
  rw [moveSnakes_pair] at hmp
  obtain ⟨hsn, hsc, -, -⟩ := updateGame_some h
  rw [hres] at hf0 hf1
  simp only [List.getD_cons_zero, List.getD_cons_succ] at hf0 hf1
  have hmem0 : nextHeadOf { a with direction := d0 } ∈ s.food :=
    (findIdx?_beq_some_facts hf0).2.2
  have hmem1 : nextHeadOf { b with direction := d1 } ∈ s.food :=
    (findIdx?_beq_some_facts hf1).2.2
  have hoa : outOfBounds (nextHeadOf { a with direction := d0 }) = false := by
    have := hfin _ hmem0
    simpa [inBounds] using this
  have hob : outOfBounds (nextHeadOf { b with direction := d1 }) = false := by
    have := hfin _ hmem1
    simpa [inBounds] using this
  have hea : eatIdx s.food { a with direction := d0 } = some i0 := by
    unfold eatIdx
    rw [if_neg (by simp [hoa])]
    exact hf0
  have heb : eatIdx s.food { b with direction := d1 } = some i1 := by
    unfold eatIdx
    rw [if_neg (by simp [hob])]
    exact hf1
  have hfood : (movementPhase s).food = s.food.eraseIdx i1 := by
    rw [hmp]
    simp only [heb]
  refine ⟨hfood, ?_, ?_, ?_, ?_, ?_⟩
  · rw [hfood]
    exact getD_mem_eraseIdx (findIdx?_beq_some_facts hf0).1 hne
  · rw [hsn, hmp, hs, hres]
    simp only [List.getD_cons_zero]
    unfold stepSnake
    rw [if_neg (by simp [hoa]), hf0]
  · rw [hsn, hmp, hs, hres]
    simp only [List.getD_cons_succ, List.getD_cons_zero]
    unfold stepSnake
    rw [if_neg (by simp [hob]), hf1]
  · rw [hsc, hmp, hscores]
    simp only [hea, heb]
    simp [List.set]
  · rw [hsc, hmp, hscores]
    simp only [hea, heb]
    simp [List.set]

/-- C10 (witness): the concrete double-eat tick — the movement-phase
food list is the pre-tick list minus index 1, and snake 0's eaten item
is still a member. -/
theorem tick_double_eat_overwrite_witness :
    GameState.WF exDoubleEat ∧
      (movementPhase exDoubleEat).food = exDoubleEat.food.eraseIdx 1 ∧
      exDoubleEat.food.getD 0 (0, 0) ∈ (movementPhase exDoubleEat).food := by
  refine ⟨by decide, ?_, ?_⟩
  · exact (tick_double_eat_overwrite [] exDoubleEat exDoubleEatRes
      (by decide) rfl (by decide) 0 1 (by decide) (by decide)
      (by decide)).1
  · exact (tick_double_eat_overwrite [] exDoubleEat exDoubleEatRes
      (by decide) rfl (by decide) 0 1 (by decide) (by decide)
      (by decide)).2.1

/-! ## C8 -/

/-- C8 (confirmed): a successful tick never ends with an empty food
list.  If the movement phase emptied it, the ticked state carries
exactly one new item, drawn from the random stream (hence an in-grid
cell) and occupied by no post-movement snake segment; otherwise the
food list is exactly what the movement phase produced.  (The
hypothesis `updateGame … = some s'` is the success of the rejection
sampling — the source loops forever when no free cell is ever
drawn.) -/
theorem tick_food_replenishment (rand : List Pos) (s s' : GameState)
    (_hwf : s.WF) (_hrun : s.isRunning = true)
    (hrand : ∀ p ∈ rand, inBounds p = true)
    (h : updateGame rand s = some s') :
    s'.food ≠ [] ∧
      ((movementPhase s).food = [] →
        ∃ p, s'.food = [p] ∧ inBounds p = true ∧
          isPositionOccupied p s'.snakes [] = false) ∧
      ((movementPhase s).food ≠ [] → s'.food = (movementPhase s).food) := by
  obtain ⟨hsn, -, -, -, -, -, hfe, hfne2⟩ := updateGame_some h
  by_cases hcase : (movementPhase s).food = []
  · obtain ⟨p, hp, hpf⟩ := hfe hcase
    have hpmem : p ∈ rand := List.mem_of_find?_eq_some hp
    have hpocc := List.find?_some hp
    refine ⟨by rw [hpf]; simp, ?_, fun hc => absurd hcase hc⟩
    intro _
    refine ⟨p, hpf, hrand p hpmem, ?_⟩
    rw [hsn]
    simpa using hpocc
  · have hf := hfne2 hcase
    exact ⟨by rw [hf]; exact hcase, fun hc => absurd hc hcase, fun _ => hf⟩

/-- C8 (witness): snake 0 eats the only item; the replenishment places
the first free random draw `(0, 0)`. -/
theorem tick_food_replenishment_witness :
    GameState.WF exSingleEat ∧
      updateGame [(0, 0)] exSingleEat = some exSingleEatRes ∧
      exSingleEatRes.food ≠ [] := by
  refine ⟨by decide, by decide, ?_⟩
  exact (tick_food_replenishment [(0, 0)] exSingleEat exSingleEatRes
    (by decide) rfl (by decide) (by decide)).1

/-! ## C9 -/

/-- C9 (confirmed): the greedy heuristic for a snake with head
`(10, 10)` facing `RIGHT` and sole food `(10, 5)` returns `UP`, for
every opposing snake that does not obstruct the `UP` cell `(10, 9)`
(neither occupying it nor predicted to move onto it): `LEFT` is
excluded as the reverse of `RIGHT`, and `UP` strictly minimises the
Manhattan distance to the food among the surviving candidates (`UP`
gives 4, `DOWN` and `RIGHT` give 6), with ties — none here — broken in
favour of the first-seen candidate. -/
theorem ai_greedy_chooses_up (other : Snake)
    (h1 : ((10 : Int), (9 : Int)) ∉ other.body)
    (h2 : getNextPosition (other.body.headD (0, 0)) other.direction ≠
      ((10 : Int), (9 : Int))) :
    getNextDirection { body := [(10, 10)], direction := .RIGHT }
      [(10, 5)] other = .UP := by
  have ha : (other.body.any fun q => q == ((10 : Int), (9 : Int))) =
      false := by
    rw [List.any_eq_false]
    intro q hq he
    have hqe : q = ((10 : Int), (9 : Int)) := by simpa using he
    exact h1 (hqe ▸ hq)
  obtain ⟨P, hP⟩ : ∃ P, getNextPosition (other.body.headD (0, 0))
      other.direction = P := ⟨_, rfl⟩
  rw [hP] at h2
  have hup : (((10 : Int), (9 : Int)) : Pos) ≠ P := Ne.symm h2
  unfold getNextDirection
  simp only [hP]
  by_cases hg1 : (((10 : Int), (11 : Int)) : Pos) = P <;>
    by_cases hg2 : (((11 : Int), (10 : Int)) : Pos) = P <;>
      cases hd : other.body.any fun q => q == ((10 : Int), (11 : Int)) <;>
        cases hr : other.body.any fun q => q == ((11 : Int), (10 : Int)) <;>
          first
          | (have e3 := hg1.trans hg2.symm
             simp at e3)
          | simp [isSafeMove, opposites, getNextPosition, outOfBounds,
              GRID_WIDTH, GRID_HEIGHT, ha, hd, hr, hup, hg1, hg2]

/-- C9 (witness): the scenario with the concrete opposing snake of the
initial layout. -/
theorem ai_greedy_chooses_up_witness :
    (((10 : Int), (9 : Int)) ∉
        ({ body := [(34, 23)], direction := .LEFT } : Snake).body) ∧
      getNextDirection { body := [(10, 10)], direction := .RIGHT }
        [(10, 5)] { body := [(34, 23)], direction := .LEFT } = .UP :=
  ⟨by decide,
    ai_greedy_chooses_up { body := [(34, 23)], direction := .LEFT }
      (by decide) (by decide)⟩

end SnakeGame
